import Mathlib

/-!
Verification development for the xpath plugin of the uiautomator2 repository
(`uiautomator2/xpath.py`).  The Python source is shallowly embedded: pure
string manipulation becomes Lean functions over `String` / `List Char`,
Python `int` becomes `ℤ` (or `ℕ` where only digits occur), Python floats
appearing in pure arithmetic become `ℚ`, and fallible operations return
`Option` / `Except`.  External collaborators (the lxml query evaluator, the
device transport, wall-clock time) are modelled as explicit parameters or
discretized state, as documented at each definition.
-/

/-! ### Characters used by the Python `repr` string-quoting model -/

/-- The single-quote character `'` (codepoint 39). -/
def sqChar : Char := Char.ofNat 39

/-- The double-quote character `"` (codepoint 34). -/
def dqChar : Char := '"'

/-- The backslash character (codepoint 92). -/
def bsChar : Char := Char.ofNat 92

/-- Newline (codepoint 10). -/
def nlChar : Char := Char.ofNat 10

/-- Carriage return (codepoint 13). -/
def crChar : Char := Char.ofNat 13

/-- Horizontal tab (codepoint 9). -/
def tabChar : Char := Char.ofNat 9

/-! ### Python string primitives used by `xpath.py`, embedded over `List Char` -/

/-- Python `s.startswith(p)`. -/
def pyStartsWith (s p : String) : Bool := p.data.isPrefixOf s.data

/-- Python `s.endswith(p)`. -/
def pyEndsWith (s p : String) : Bool := p.data.reverse.isPrefixOf s.data.reverse

/-- Python `s[n:]`. -/
def pyDrop (s : String) (n : ℕ) : String := String.mk (s.data.drop n)

/-- Python `s[:-1]` (for nonempty strings; on `""` it also yields `""`,
matching Python). -/
def pyDropLast (s : String) : String := String.mk s.data.dropLast

/-- Python `len(s)`. -/
def pyLen (s : String) : ℕ := s.data.length

/-- The lowercase hexadecimal digit for `n < 16`, as used by Python `\xNN`
escapes. -/
def hexDigit (n : ℕ) : Char :=
  if n < 10 then Char.ofNat (48 + n) else Char.ofNat (87 + n)

/-- Escape one character the way Python's `repr` does inside a string literal
quoted by `q`: a backslash and the quote character are backslash-escaped,
newline / carriage-return / tab become `\n` / `\r` / `\t`, and every other
non-printable Latin-1 character — the C0 controls, DEL (127), the C1 range
128–159, no-break space (160) and soft hyphen (173) — becomes a `\xNN` hex
escape.  Printable characters pass through.  This is exact for every
codepoint up to 255; Python additionally `\u`-escapes non-printable
characters above that, which the model passes through, so the theorems
about quoting fidelity restrict themselves to printable ASCII. -/
def pyReprChar (q c : Char) : List Char :=
  if c = bsChar then [bsChar, bsChar]
  else if c = q then [bsChar, q]
  else if c = nlChar then [bsChar, 'n']
  else if c = crChar then [bsChar, 'r']
  else if c = tabChar then [bsChar, 't']
  else if c.toNat < 32 ∨ (127 ≤ c.toNat ∧ c.toNat ≤ 160) ∨ c.toNat = 173 then
    [bsChar, 'x', hexDigit (c.toNat / 16), hexDigit (c.toNat % 16)]
  else [c]

/-- Escape a character list with `pyReprChar`. -/
def pyReprData (q : Char) : List Char → List Char
  | [] => []
  | c :: cs => pyReprChar q c ++ pyReprData q cs

/-- Python `repr` quote choice: a single quote, unless the string contains a
single quote and no double quote, in which case a double quote. -/
def pyReprQuoteChar (cs : List Char) : Char :=
  if cs.contains sqChar && !(cs.contains dqChar) then dqChar else sqChar

/-- Python `repr(s)` for a string `s` (the `{!r}` format conversion used
throughout `strict_xpath`). -/
def pyRepr (s : String) : String :=
  let q := pyReprQuoteChar s.data
  String.mk (q :: (pyReprData q s.data ++ [q]))

/-- `string_quote` from `xpath.py`: `"{!r}".format(s)`, i.e. Python `repr`. -/
def string_quote (s : String) : String := pyRepr s

/-- `safe_xmlstr` from `xpath.py`: `s.replace("$", "-")`. -/
def safe_xmlstr (s : String) : String :=
  String.mk (s.data.map (fun c => if c = '$' then '-' else c))

/-- `strict_xpath` from `xpath.py`: translate a shorthand query string into
the XPath string handed to the lxml evaluator, by the first-match-wins
`if`/`elif` cascade of the source (logging omitted: it does not affect the
returned value). -/
def strict_xpath (xpath : String) : String :=
  if pyStartsWith xpath "//" then xpath
  else if pyStartsWith xpath "@" then
    "//*[@resource-id=" ++ pyRepr (pyDrop xpath 1) ++ "]"
  else if pyStartsWith xpath "^" then
    "//*[re:match(text(), " ++ pyRepr xpath ++ ")]"
  else if pyStartsWith xpath "%" && pyEndsWith xpath "%" then
    "//*[contains(@text, " ++ string_quote (pyDropLast (pyDrop xpath 1)) ++ ")]"
  else if pyStartsWith xpath "%" then
    "//*[" ++ pyRepr (pyDrop xpath 1) ++ " = substring(@text, string-length(@text) - "
      ++ toString (pyLen (pyDrop xpath 1)) ++ " + 1)]"
  else if pyEndsWith xpath "%" then
    "//*[starts-with(@text, " ++ pyRepr (pyDropLast xpath) ++ ")]"
  else
    "//*[@text=" ++ string_quote xpath ++ " or @content-desc=" ++ string_quote xpath ++ "]"

/-! ### The spec's view of the translator: an ordered rule list -/

/-- The structured-query kinds named by the specification's seven dispatch
rules. -/
inductive QueryShape where
  | passthrough (s : String)
  | resourceIdEq (rid : String)
  | textRegex (pat : String)
  | textContains (sub : String)
  | textEndsWith (suf : String)
  | textStartsWith (p : String)
  | textOrDescEq (v : String)

/-- Render a classified query back to the concrete XPath string format the
evaluator receives. -/
def renderShape : QueryShape → String
  | .passthrough s => s
  | .resourceIdEq rid => "//*[@resource-id=" ++ pyRepr rid ++ "]"
  | .textRegex pat => "//*[re:match(text(), " ++ pyRepr pat ++ ")]"
  | .textContains sub => "//*[contains(@text, " ++ string_quote sub ++ ")]"
  | .textEndsWith suf =>
    "//*[" ++ pyRepr suf ++ " = substring(@text, string-length(@text) - "
      ++ toString (pyLen suf) ++ " + 1)]"
  | .textStartsWith p => "//*[starts-with(@text, " ++ pyRepr p ++ ")]"
  | .textOrDescEq v =>
    "//*[@text=" ++ string_quote v ++ " or @content-desc=" ++ string_quote v ++ "]"

/-- Evaluate an ordered list of (guard, rule) pairs, first match wins, with
the exact-text-or-description rule as the final default. -/
def applyRules : List ((String → Bool) × (String → QueryShape)) → String → QueryShape
  | [], s => .textOrDescEq s
  | r :: rs, s => if r.1 s then r.2 s else applyRules rs s

/-- The seven dispatch rules exactly as the claim states them, in priority
order; rule 4 (contains) carries the claim's extra `length > 1` guard. -/
def claimDispatchRules : List ((String → Bool) × (String → QueryShape)) :=
  [ (fun s => pyStartsWith s "//", QueryShape.passthrough),
    (fun s => pyStartsWith s "@", fun s => .resourceIdEq (pyDrop s 1)),
    (fun s => pyStartsWith s "^", QueryShape.textRegex),
    (fun s => pyStartsWith s "%" && pyEndsWith s "%" && decide (1 < pyLen s),
      fun s => .textContains (pyDropLast (pyDrop s 1))),
    (fun s => pyStartsWith s "%", fun s => .textEndsWith (pyDrop s 1)),
    (fun s => pyEndsWith s "%", fun s => .textStartsWith (pyDropLast s)),
    (fun _ => true, QueryShape.textOrDescEq) ]

/-- The dispatch rules with rule 4 corrected to match the code: it fires
whenever the string both starts and ends with `%`, with no length guard, so
the one-character string `%` takes the contains rule (on the empty
substring) rather than the ends-with rule. -/
def codeDispatchRules : List ((String → Bool) × (String → QueryShape)) :=
  [ (fun s => pyStartsWith s "//", QueryShape.passthrough),
    (fun s => pyStartsWith s "@", fun s => .resourceIdEq (pyDrop s 1)),
    (fun s => pyStartsWith s "^", QueryShape.textRegex),
    (fun s => pyStartsWith s "%" && pyEndsWith s "%",
      fun s => .textContains (pyDropLast (pyDrop s 1))),
    (fun s => pyStartsWith s "%", fun s => .textEndsWith (pyDrop s 1)),
    (fun s => pyEndsWith s "%", fun s => .textStartsWith (pyDropLast s)),
    (fun _ => true, QueryShape.textOrDescEq) ]

/-! ### Claim C8: validity of the quoting of embedded literals -/

/-- Parse an XPath 1.0 string literal: a quote character, followed by
characters none of which is that quote character, closed by the same quote
character.  Returns the denoted string — XPath 1.0 literals have no escape
sequences, the enclosed characters stand for themselves.  This is the
reference semantics the generated queries are evaluated under; it follows
the spec's words for the target query language's string-literal syntax. -/
def xpath_literal_value (s : String) : Option String :=
  match s.data with
  | [] => none
  | q :: rest =>
    if (q = sqChar ∨ q = dqChar) ∧ rest.getLast? = some q
        ∧ rest.dropLast.all (fun c => c != q) then
      some (String.mk rest.dropLast)
    else none

/-! ### Numeric helpers: Python `int()` truncation and floor arithmetic -/

/-- Python `int(x)` applied to a (here: rational) number: truncation toward
zero.  The source applies it to float products such as `width * px`; the
model computes the products exactly in `ℚ`. -/
def pyTrunc (q : ℚ) : ℤ := if 0 ≤ q then ⌊q⌋ else -⌊-q⌋

/-! ### Geometry Element: bounds parsing and derived coordinates -/

/-- The maximal runs of consecutive decimal-digit characters of a character
list, in order: the match list of Python `re.findall(r"\d+", s)`. -/
def digitRuns : List Char → List (List Char)
  | [] => []
  | c :: cs =>
    if c.isDigit then
      match digitRuns cs with
      | g :: gs => if (cs.head?.any Char.isDigit) then (c :: g) :: gs else [c] :: g :: gs
      | [] => [[c]]
    else digitRuns cs

/-- Python `int` applied to a nonempty string of decimal digits. -/
def runVal (cs : List Char) : ℕ := cs.foldl (fun n c => 10 * n + (c.toNat - 48)) 0

namespace XMLElement

/-- `XMLElement.bounds` from `xpath.py`:
`lx, ly, rx, ry = map(int, re.findall(r"\d+", bounds))`.  Python unpacks the
iterator into exactly four targets, so the statement raises `ValueError`
(modelled as `none`) unless the attribute string contains exactly four digit
runs; the four runs become (left, top, right, bottom) in order. -/
def bounds (battr : String) : Option (ℤ × ℤ × ℤ × ℤ) :=
  match (digitRuns battr.data).map (fun r => (runVal r : ℤ)) with
  | [lx, ly, rx, ry] => some (lx, ly, rx, ry)
  | _ => none

/-- `XMLElement.rect`: (left, top, width, height) derived from bounds. -/
def rect (battr : String) : Option (ℤ × ℤ × ℤ × ℤ) :=
  match bounds battr with
  | some (lx, ly, rx, ry) => some (lx, ly, rx - lx, ry - ly)
  | none => none

/-- `XMLElement.offset(px, py)`: `(x + int(width * px), y + int(height * py))`
over the derived rect. -/
def offset (battr : String) (px py : ℚ) : Option (ℤ × ℤ) :=
  match rect battr with
  | some (x, y, w, h) => some (x + pyTrunc ((w : ℚ) * px), y + pyTrunc ((h : ℚ) * py))
  | none => none

/-- `XMLElement.center`: `offset(0.5, 0.5)`. -/
def center (battr : String) : Option (ℤ × ℤ) := offset battr (1/2) (1/2)

end XMLElement

/-! ### Swipe geometry and Python-level errors -/

/-- The Python exception kinds the embedded operations can surface. -/
inductive PyErr where
  | indexError
  | typeError
  | valueError
  | assertionError
  | runtimeError
  | elementNotFound
deriving DecidableEq

namespace XMLElement

/-- `XMLElement.swipe` from `xpath.py`, reduced to the swipe endpoints it
sends: asserts `0 < scale ≤ 1`, computes the symmetric insets
`int(width*(1-scale)) // 2` and `int(height*(1-scale)) // 2` (Python `//` is
floor division, `Int.fdiv`), forms the four inset edge midpoints, and
dispatches on the direction, raising `RuntimeError` for an unknown
direction.  The returned pair is (from, to) as handed to `send_swipe`. -/
def swipe (battr : String) (direction : String) (scale : ℚ) :
    Except PyErr ((ℤ × ℤ) × (ℤ × ℤ)) :=
  if ¬(0 < scale ∧ scale ≤ 1) then .error .assertionError
  else
    match bounds battr with
    | none => .error .valueError
    | some (lx, ly, rx, ry) =>
      let width := rx - lx
      let height := ry - ly
      let hOffset := (pyTrunc ((width : ℚ) * (1 - scale))).fdiv 2
      let vOffset := (pyTrunc ((height : ℚ) * (1 - scale))).fdiv 2
      let leftP := (lx + hOffset, ly + height.fdiv 2)
      let upP := (lx + width.fdiv 2, ly + vOffset)
      let rightP := (rx - hOffset, ly + height.fdiv 2)
      let bottomP := (lx + width.fdiv 2, ry - vOffset)
      if direction = "left" then .ok (rightP, leftP)
      else if direction = "right" then .ok (leftP, rightP)
      else if direction = "up" then .ok (bottomP, upP)
      else if direction = "down" then .ok (upP, bottomP)
      else .error .runtimeError

end XMLElement

/-! ### Selector resolution: multi-query intersection -/

/-- A matched tree node as handed back by the external query evaluator;
`uid` distinguishes distinct nodes of one parsed snapshot, `battr` is the
node's raw `bounds` attribute consumed by the geometry operations. -/
structure UINode where
  uid : ℕ
  battr : String
deriving DecidableEq

/-- Python `set(x).intersection(y)` over match lists: the elements of `x`
(kept once each) that also occur in `y`.  Only membership in the result is
relied on by the theorems; CPython's set iteration order is not modelled. -/
def set_intersection (x y : List UINode) : List UINode :=
  x.dedup.filter (fun e => e ∈ y)

/-- `XPathSelector.all` from `xpath.py`, with the lxml evaluation of one
XPath string against the parsed, tag-normalized snapshot abstracted as
`ev` (snapshot parsing and per-query evaluation belong to the external
tree-query library): collect each attached query's match list, then reduce
with `lambda x, y: set(x).intersection(y)`.  `functools.reduce` over an
empty sequence raises `TypeError` (`none` here); the selector constructor
always installs at least one query. -/
def XPathSelector.all (ev : String → List UINode) (xpathList : List String) :
    Option (List UINode) :=
  match xpathList.map ev with
  | [] => none
  | m :: ms => some (ms.foldl set_intersection m)

/-- `XPathSelector.click_nowait` from `xpath.py`:
`x, y = self.all()[0].center()` followed by `send_click(x, y)`; the value
returned is the dispatched click point.  Indexing an empty match list
raises `IndexError`, which the method does not catch. -/
def XPathSelector.click_nowait (ev : String → List UINode)
    (xpathList : List String) : Except PyErr (ℤ × ℤ) :=
  match XPathSelector.all ev xpathList with
  | none => .error .typeError
  | some [] => .error .indexError
  | some (n :: _) =>
    match XMLElement.center n.battr with
    | some c => .ok c
    | none => .error .valueError

/-! ### Wait: deadline computation and poll loop -/

/-- Python `timeout or self._global_timeout` from `XPathSelector.wait`
(time in integer milliseconds): `None` — and, because `0` is falsy in
Python, also a zero timeout — selects the session's default. -/
def pyOrTimeout (timeout : Option ℤ) (globalTimeout : ℤ) : ℤ :=
  match timeout with
  | none => globalTimeout
  | some t => if t = 0 then globalTimeout else t

/-- The number of `self.exists` resolve attempts the `wait` loop performs
for an effective timeout of `timeoutMs` milliseconds.  Time is modelled
discretely: the deadline is fixed once at `now + timeout`, each resolve is
instantaneous, and each iteration ends with `time.sleep(.2)` (200 ms), so
attempt `i` happens at time `200·i` and is executed iff `200·i` lies
strictly below the timeout. -/
def waitDeadlineChecks (timeoutMs : ℤ) : ℕ := ((timeoutMs + 199) / 200).toNat

/-- `XPathSelector.wait` from `xpath.py` under the discrete time model:
`deadline = time.time() + (timeout or self._global_timeout)`, then a loop
that polls `self.exists` (a fresh resolve, abstracted as the predicate `ex`
on the iteration index) while the current time is strictly before the
deadline, returning the first successful attempt's match (represented by
its iteration index) or `None` — a signaled absence, never an error. -/
def XPathSelector.wait (ex : ℕ → Bool) (timeout : Option ℤ)
    (globalTimeout : ℤ) : Option ℕ :=
  (List.range (waitDeadlineChecks (pyOrTimeout timeout globalTimeout))).find? ex

/-! ### Resolution-time tag normalization of the parsed snapshot -/

/-- Python `a or b` on strings: the empty string is falsy. -/
def pyOrStr (a b : String) : String := if a = "" then b else a

/-- The parsed snapshot: a tree of elements, each with a structural tag and
an attribute map (lxml's parse of the hierarchy XML). -/
inductive UITree where
  | node (tag : String) (attrib : List (String × String)) (children : List UITree)

/-- The per-element transformation performed by `XPathSelector.all` on every
element matched by `root.xpath("//node")` — i.e. on every element whose tag
is literally `node`:
`node.tag = safe_xmlstr(node.attrib.pop("class", "")) or "node"`.
Elements with any other tag are left untouched. -/
def normPair (p : String × List (String × String)) :
    String × List (String × String) :=
  if p.1 = "node" then
    (pyOrStr (safe_xmlstr ((p.2.lookup "class").getD "")) "node",
      p.2.filter (fun kv => kv.1 ≠ "class"))
  else p

mutual

/-- Apply the resolution-time normalization to every element of the parsed
tree (the source's loop over `root.xpath("//node")`, which selects every
element tagged `node` at any depth, the root included). -/
def normT : UITree → UITree
  | .node tag attrib children =>
    if tag = "node" then
      .node (pyOrStr (safe_xmlstr ((attrib.lookup "class").getD "")) "node")
        (attrib.filter (fun kv => kv.1 ≠ "class")) (normL children)
    else .node tag attrib (normL children)

/-- `normT` mapped over a list of subtrees. -/
def normL : List UITree → List UITree
  | [] => []
  | t :: ts => normT t :: normL ts

end

mutual

/-- All elements of a tree as (tag, attribute map) pairs, in document
order. -/
def elemsT : UITree → List (String × List (String × String))
  | .node tag attrib children => (tag, attrib) :: elemsL children

/-- `elemsT` over a list of subtrees, concatenated. -/
def elemsL : List UITree → List (String × List (String × String))
  | [] => []
  | t :: ts => elemsT t ++ elemsL ts

end

/-- Evaluation of a structured query `//*[@name='val']` — an attribute
equality predicate — against a (normalized) parsed tree: all elements whose
attribute map binds `name` to `val`. -/
def evalAttrEq (name val : String) (t : UITree) :
    List (String × List (String × String)) :=
  (elemsT t).filter (fun e => e.2.lookup name == some val)

/-- Claim C2 (counterexample): at the one-character input `%`, the translator
does not return the query chosen by the claim's seven rules.  Python's
`startswith`/`endswith` both succeed on `"%"`, so the code takes the
contains branch with the empty substring, while the claim's rule 4 demands
length > 1 and its rule 5 would produce the ends-with query instead. -/
theorem strict_xpath_percent_deviates_from_claim_rules :
    strict_xpath "%" ≠ renderShape (applyRules claimDispatchRules "%") := by
  decide

/-- Claim C2 (amended): for every shorthand input, `strict_xpath`
deterministically returns the structured query chosen by the seven dispatch
rules evaluated in priority order with first match winning, where rule 4
(contains) fires whenever the string both starts and ends with `%` — with no
`length > 1` guard, so the one-character string `%` takes the contains rule
on the empty substring. -/
theorem strict_xpath_follows_dispatch_rules (s : String) :
    strict_xpath s = renderShape (applyRules codeDispatchRules s) := by
  by_cases h1 : pyStartsWith s "//"
  · simp [strict_xpath, applyRules, codeDispatchRules, renderShape, h1]
  · by_cases h2 : pyStartsWith s "@"
    · simp [strict_xpath, applyRules, codeDispatchRules, renderShape, h1, h2]
    · by_cases h3 : pyStartsWith s "^"
      · simp [strict_xpath, applyRules, codeDispatchRules, renderShape, h1, h2, h3]
      · by_cases h4 : pyStartsWith s "%"
        · by_cases h5 : pyEndsWith s "%"
          · simp [strict_xpath, applyRules, codeDispatchRules, renderShape,
              h1, h2, h3, h4, h5]
          · simp [strict_xpath, applyRules, codeDispatchRules, renderShape,
              h1, h2, h3, h4, h5]
        · by_cases h5 : pyEndsWith s "%"
          · simp [strict_xpath, applyRules, codeDispatchRules, renderShape,
              h1, h2, h3, h4, h5]
          · simp [strict_xpath, applyRules, codeDispatchRules, renderShape,
              h1, h2, h3, h4, h5]

/-- Witness for the amended C2 theorem at the concrete shorthand `@foo`. -/
theorem strict_xpath_follows_dispatch_rules_witness :
    strict_xpath "@foo" = renderShape (applyRules codeDispatchRules "@foo") :=
  strict_xpath_follows_dispatch_rules "@foo"

/-- On printable ASCII characters other than the backslash and the chosen
quote, `pyReprChar` is the identity, so the whole escaping pass is. -/
theorem pyReprData_eq_self (q : Char) (cs : List Char)
    (h : ∀ c ∈ cs, c ≠ bsChar ∧ c ≠ q ∧ 32 ≤ c.toNat ∧ c.toNat ≤ 126) :
    pyReprData q cs = cs := by
  induction cs with
  | nil => rfl
  | cons c cs ih =>
    obtain ⟨hb, hq, hge, hle⟩ := h c (by simp)
    have hn : c ≠ nlChar := fun hh => by rw [hh] at hge; exact absurd hge (by decide)
    have hr : c ≠ crChar := fun hh => by rw [hh] at hge; exact absurd hge (by decide)
    have ht : c ≠ tabChar := fun hh => by rw [hh] at hge; exact absurd hge (by decide)
    have hx : ¬(c.toNat < 32 ∨ (127 ≤ c.toNat ∧ c.toNat ≤ 160) ∨ c.toNat = 173) := by
      omega
    simp only [pyReprData, pyReprChar, if_neg hb, if_neg hq, if_neg hn, if_neg hr,
      if_neg ht, if_neg hx]
    simp only [List.singleton_append, List.cons.injEq, true_and]
    exact ih (fun c hc => h c (by simp [hc]))

/-- Claim C8 (counterexample): quoting is not valid for every literal.  A
literal containing both quote characters is single-quoted with a
backslash-escaped quote, which XPath has no notion of; a literal containing
a backslash or a newline is doubled resp. rewritten to `\n`; and a
non-printable character such as no-break space U+00A0 becomes a `\xNN`
escape — in every case the evaluated predicate would compare against a
different string. -/
theorem string_quote_not_xpath_safe :
    xpath_literal_value (string_quote (String.mk [sqChar, dqChar]))
        ≠ some (String.mk [sqChar, dqChar]) ∧
    xpath_literal_value (string_quote (String.mk [bsChar]))
        ≠ some (String.mk [bsChar]) ∧
    xpath_literal_value (string_quote (String.mk [nlChar]))
        ≠ some (String.mk [nlChar]) ∧
    xpath_literal_value (string_quote (String.mk [Char.ofNat 160]))
        ≠ some (String.mk [Char.ofNat 160]) := by
  decide

/-- Claim C8 (amended): for every literal consisting of printable ASCII
characters (codepoints 32–126) that contains no backslash and not both
quote characters, the quoting used by the translator is valid XPath
string-literal syntax and the denoted string is exactly the original
literal.  (Literals with only one kind of quote character are safe: `repr`
switches the outer quote.)  Outside this region `repr` emits backslash
escapes that XPath does not interpret, as the counterexample shows. -/
theorem string_quote_roundtrip (s : String)
    (hascii : ∀ c ∈ s.data, c ≠ bsChar ∧ 32 ≤ c.toNat ∧ c.toNat ≤ 126)
    (hq : ¬(s.data.contains sqChar ∧ s.data.contains dqChar)) :
    xpath_literal_value (string_quote s) = some s := by
  obtain ⟨l⟩ := s
  have hmem : ∀ c, l.contains c = true ↔ c ∈ l := by
    intro c
    exact List.elem_iff
  have hnotin : pyReprQuoteChar l ∉ l := by
    unfold pyReprQuoteChar
    by_cases hs : l.contains sqChar && !(l.contains dqChar)
    · rw [if_pos hs]
      simp only [Bool.and_eq_true, Bool.not_eq_true'] at hs
      intro hd
      rw [← hmem dqChar] at hd
      rw [hs.2] at hd
      exact Bool.false_ne_true hd
    · rw [if_neg hs]
      simp only [Bool.and_eq_true, Bool.not_eq_true', not_and] at hs
      intro hsq
      rw [← hmem sqChar] at hsq
      have hdq := hs hsq
      rw [Bool.not_eq_false] at hdq
      exact hq ⟨hsq, hdq⟩
  have hdata : pyReprData (pyReprQuoteChar l) l = l := by
    refine pyReprData_eq_self _ _ (fun c hc => ?_)
    obtain ⟨hb, hge, hle⟩ := hascii c hc
    exact ⟨hb, fun hcq => hnotin (hcq ▸ hc), hge, hle⟩
  show xpath_literal_value (pyRepr (String.mk l)) = some (String.mk l)
  unfold pyRepr
  simp only [xpath_literal_value, hdata]
  rw [if_pos]
  · simp
  · refine ⟨?_, ?_, ?_⟩
    · unfold pyReprQuoteChar
      by_cases hs : l.contains sqChar && !(l.contains dqChar)
      · rw [if_pos hs]; right; rfl
      · rw [if_neg hs]; left; rfl
    · exact List.getLast?_concat l
    · rw [List.dropLast_concat]
      rw [List.all_eq_true]
      intro c hc
      rw [bne_iff_ne]
      intro hcq
      exact hnotin (hcq ▸ hc)

/-- Witness for the amended C8 theorem: a literal containing a double quote
round-trips exactly. -/
theorem string_quote_roundtrip_witness :
    xpath_literal_value (string_quote (String.mk [dqChar, 'a']))
        = some (String.mk [dqChar, 'a']) :=
  string_quote_roundtrip (String.mk [dqChar, 'a']) (by decide) (by decide)

/-- `pyTrunc` of an integer-over-natural quotient is `Int.tdiv`. -/
theorem pyTrunc_div (n : ℤ) (d : ℕ) (hd : 0 < d) :
    pyTrunc ((n : ℚ) / (d : ℚ)) = n.tdiv d := by
  have hd0 : (0 : ℚ) < (d : ℚ) := by exact_mod_cast hd
  rcases le_or_lt 0 n with hn | hn
  · have hq : (0 : ℚ) ≤ (n : ℚ) / (d : ℚ) :=
      div_nonneg (by exact_mod_cast hn) hd0.le
    rw [pyTrunc, if_pos hq, Rat.floor_intCast_div_natCast,
      Int.tdiv_eq_ediv hn (by omega)]
  · have hq : ¬ ((0 : ℚ) ≤ (n : ℚ) / (d : ℚ)) := by
      rw [not_le]
      exact div_neg_of_neg_of_pos (by exact_mod_cast hn) hd0
    rw [pyTrunc, if_neg hq]
    have h1 : -((n : ℚ) / (d : ℚ)) = ((-n : ℤ) : ℚ) / ((d : ℕ) : ℚ) := by
      push_cast; ring
    rw [h1, Rat.floor_intCast_div_natCast, ← Int.tdiv_eq_ediv (by omega) (by omega),
      Int.neg_tdiv, neg_neg]

/-- On nonnegative rationals, Python truncation agrees with the floor. -/
theorem pyTrunc_eq_floor (q : ℚ) (h : 0 ≤ q) : pyTrunc q = ⌊q⌋ := by
  rw [pyTrunc, if_pos h]

/-- Halving after flooring equals flooring the half (`Int./` is Euclidean
division, which rounds toward −∞ for the positive divisor 2). -/
theorem floor_half (q : ℚ) : ⌊q⌋ / 2 = ⌊q / 2⌋ := by
  have h1 : (⌊q⌋ : ℚ) ≤ q := Int.floor_le q
  have h2 : q < (⌊q⌋ : ℚ) + 1 := Int.lt_floor_add_one q
  have hm1 : 2 * (⌊q⌋ / 2) ≤ ⌊q⌋ := by omega
  have hm2 : ⌊q⌋ ≤ 2 * (⌊q⌋ / 2) + 1 := by omega
  have hc1 : ((2 * (⌊q⌋ / 2) : ℤ) : ℚ) ≤ ((⌊q⌋ : ℤ) : ℚ) := by exact_mod_cast hm1
  have hc2 : ((⌊q⌋ : ℤ) : ℚ) ≤ ((2 * (⌊q⌋ / 2) + 1 : ℤ) : ℚ) := by exact_mod_cast hm2
  rw [eq_comm, Int.floor_eq_iff]
  push_cast at hc1 hc2
  constructor
  · linarith
  · linarith

/-- Claim C4 (counterexample): a bounds string with more than four digit runs
does not parse — the four-target unpacking raises `ValueError` — although the
claim promises success (taking the first four runs) whenever at least four
digit runs are present. -/
theorem bounds_rejects_six_digit_runs :
    4 ≤ (digitRuns "[1,2][3,4][5,6]".data).length ∧
    XMLElement.bounds "[1,2][3,4][5,6]" = none := by
  decide

/-- A prefix containing no digit contributes no digit run. -/
theorem digitRuns_nondigit_prefix (sep l : List Char)
    (h : ∀ c ∈ sep, c.isDigit = false) :
    digitRuns (sep ++ l) = digitRuns l := by
  induction sep with
  | nil => rfl
  | cons c cs ih =>
    have hc : c.isDigit = false := h c (by simp)
    simp only [List.cons_append, digitRuns, hc, Bool.false_eq_true, if_false]
    exact ih (fun c hc => h c (by simp [hc]))

/-- A nonempty all-digit prefix followed by a non-digit (or nothing) is
scanned as one maximal digit run. -/
theorem digitRuns_run_prefix (run l : List Char) (hne : run ≠ [])
    (hd : ∀ c ∈ run, c.isDigit = true)
    (hl : l.head?.any Char.isDigit = false) :
    digitRuns (run ++ l) = run :: digitRuns l := by
  induction run with
  | nil => exact absurd rfl hne
  | cons c cs ih =>
    have hc : c.isDigit = true := hd c (by simp)
    cases cs with
    | nil =>
      simp only [List.singleton_append]
      rw [digitRuns, if_pos hc]
      cases hdr : digitRuns l with
      | nil => rfl
      | cons g gs => simp [hl]
    | cons c2 cs2 =>
      have hih := ih (by simp) (fun x hx => hd x (by simp [hx]))
      simp only [List.cons_append] at hih ⊢
      rw [digitRuns, if_pos hc, hih]
      have hc2 : c2.isDigit = true := hd c2 (by simp)
      simp [hc2]

/-- Claim C4 (amended): the bounds parser is a permissive numeric-token scan
that ignores separator punctuation entirely, but the four-target unpacking
makes any count of digit runs other than exactly four a hard error: (i)
whenever the digit-run count differs from 4 the parse raises (`none`); (ii)
exactly four digit runs parse to (left, top, right, bottom) in order; (iii)
any string decomposed as four nonempty digit runs separated by arbitrary
nonempty digit-free separators (with digit-free leading and trailing junk)
parses to the values of those runs, whatever the separators are. -/
theorem bounds_exactly_four_runs :
    (∀ s : String, (digitRuns s.data).length ≠ 4 → XMLElement.bounds s = none) ∧
    (∀ (s : String) (r0 r1 r2 r3 : List Char),
      digitRuns s.data = [r0, r1, r2, r3] →
      XMLElement.bounds s =
        some ((runVal r0 : ℤ), (runVal r1 : ℤ), (runVal r2 : ℤ), (runVal r3 : ℤ))) ∧
    (∀ (a0 a1 a2 a3 a4 r0 r1 r2 r3 : List Char),
      (∀ c ∈ a0, c.isDigit = false) → (∀ c ∈ a1, c.isDigit = false) →
      (∀ c ∈ a2, c.isDigit = false) → (∀ c ∈ a3, c.isDigit = false) →
      (∀ c ∈ a4, c.isDigit = false) →
      a1 ≠ [] → a2 ≠ [] → a3 ≠ [] →
      r0 ≠ [] → r1 ≠ [] → r2 ≠ [] → r3 ≠ [] →
      (∀ c ∈ r0, c.isDigit = true) → (∀ c ∈ r1, c.isDigit = true) →
      (∀ c ∈ r2, c.isDigit = true) → (∀ c ∈ r3, c.isDigit = true) →
      XMLElement.bounds (String.mk
          (a0 ++ (r0 ++ (a1 ++ (r1 ++ (a2 ++ (r2 ++ (a3 ++ (r3 ++ a4)))))))) ) =
        some ((runVal r0 : ℤ), (runVal r1 : ℤ), (runVal r2 : ℤ), (runVal r3 : ℤ))) := by
  have hhead : ∀ (a : List Char) (rest : List Char), a ≠ [] →
      (∀ c ∈ a, c.isDigit = false) →
      ((a ++ rest).head?.any Char.isDigit) = false := by
    intro a rest hne ha
    cases a with
    | nil => exact absurd rfl hne
    | cons x xs =>
      simp only [List.cons_append, List.head?_cons, Option.any_some]
      exact ha x (by simp)
  have hbase : ∀ (a : List Char), (∀ c ∈ a, c.isDigit = false) →
      digitRuns a = [] := by
    intro a ha
    have := digitRuns_nondigit_prefix a [] ha
    simpa using this
  refine ⟨?_, ?_, ?_⟩
  · intro s hlen
    unfold XMLElement.bounds
    rcases hL : digitRuns s.data with _ | ⟨g0, L0⟩
    · rfl
    rcases L0 with _ | ⟨g1, L1⟩
    · rfl
    rcases L1 with _ | ⟨g2, L2⟩
    · rfl
    rcases L2 with _ | ⟨g3, L3⟩
    · rfl
    rcases L3 with _ | ⟨g4, L4⟩
    · rw [hL] at hlen
      simp at hlen
    · rfl
  · intro s r0 r1 r2 r3 hl
    unfold XMLElement.bounds
    rw [hl]
    rfl
  · intro a0 a1 a2 a3 a4 r0 r1 r2 r3 ha0 ha1 ha2 ha3 ha4 hne1 hne2 hne3
      hr0 hr1 hr2 hr3 hd0 hd1 hd2 hd3
    have hhead4 : (a4.head?.any Char.isDigit) = false := by
      cases a4 with
      | nil => rfl
      | cons x xs =>
        simp only [List.head?_cons, Option.any_some]
        exact ha4 x (by simp)
    have e4 : digitRuns (r3 ++ a4) = r3 :: digitRuns a4 :=
      digitRuns_run_prefix r3 a4 hr3 hd3 hhead4
    have e3 : digitRuns (a3 ++ (r3 ++ a4)) = digitRuns (r3 ++ a4) :=
      digitRuns_nondigit_prefix a3 _ ha3
    have e2 : digitRuns (r2 ++ (a3 ++ (r3 ++ a4))) = r2 :: digitRuns (a3 ++ (r3 ++ a4)) :=
      digitRuns_run_prefix r2 _ hr2 hd2 (hhead a3 _ hne3 ha3)
    have e1 : digitRuns (a2 ++ (r2 ++ (a3 ++ (r3 ++ a4)))) =
        digitRuns (r2 ++ (a3 ++ (r3 ++ a4))) :=
      digitRuns_nondigit_prefix a2 _ ha2
    have e0 : digitRuns (r1 ++ (a2 ++ (r2 ++ (a3 ++ (r3 ++ a4))))) =
        r1 :: digitRuns (a2 ++ (r2 ++ (a3 ++ (r3 ++ a4)))) :=
      digitRuns_run_prefix r1 _ hr1 hd1 (hhead a2 _ hne2 ha2)
    have f1 : digitRuns (a1 ++ (r1 ++ (a2 ++ (r2 ++ (a3 ++ (r3 ++ a4)))))) =
        digitRuns (r1 ++ (a2 ++ (r2 ++ (a3 ++ (r3 ++ a4))))) :=
      digitRuns_nondigit_prefix a1 _ ha1
    have f0 : digitRuns (r0 ++ (a1 ++ (r1 ++ (a2 ++ (r2 ++ (a3 ++ (r3 ++ a4))))))) =
        r0 :: digitRuns (a1 ++ (r1 ++ (a2 ++ (r2 ++ (a3 ++ (r3 ++ a4)))))) :=
      digitRuns_run_prefix r0 _ hr0 hd0 (hhead a1 _ hne1 ha1)
    have g0 : digitRuns (a0 ++ (r0 ++ (a1 ++ (r1 ++ (a2 ++ (r2 ++ (a3 ++ (r3 ++ a4)))))))) =
        digitRuns (r0 ++ (a1 ++ (r1 ++ (a2 ++ (r2 ++ (a3 ++ (r3 ++ a4))))))) :=
      digitRuns_nondigit_prefix a0 _ ha0
    unfold XMLElement.bounds
    rw [show (String.mk
        (a0 ++ (r0 ++ (a1 ++ (r1 ++ (a2 ++ (r2 ++ (a3 ++ (r3 ++ a4))))))))).data =
        a0 ++ (r0 ++ (a1 ++ (r1 ++ (a2 ++ (r2 ++ (a3 ++ (r3 ++ a4))))))) from rfl]
    rw [g0, f0, f1, e0, e1, e2, e3, e4, hbase a4 ha4]
    rfl

/-- Witness for the amended C4 theorem: the canonical bounds string
`[10,20][110,220]` decomposes into four digit runs and parses to the four
coordinates. -/
theorem bounds_exactly_four_runs_witness :
    XMLElement.bounds "[10,20][110,220]" = some (10, 20, 110, 220) := by
  have h := bounds_exactly_four_runs.2.1 "[10,20][110,220]"
    ['1','0'] ['2','0'] ['1','1','0'] ['2','2','0'] (by decide)
  rw [h]
  decide

/-- Claim C5 (counterexample): the offset coordinate is not
`left + floor(width × px)`.  Python `int()` truncates toward zero, and on a
node whose bounds violate the right ≥ left invariant the width is negative:
for bounds `[5,0][0,10]` the code computes center x = 5 + int(−2.5) = 3,
while the floor formula yields 5 + ⌊−2.5⌋ = 2. -/
theorem offset_truncates_not_floors :
    XMLElement.center "[5,0][0,10]" = some (3, 5) ∧
    (5 : ℤ) + ⌊((-5 : ℚ)) * (1 / 2)⌋ = 2 ∧
    ((3 : ℤ), (5 : ℤ)) ≠ ((2 : ℤ), (5 : ℤ)) := by
  refine ⟨?_, ?_, by decide⟩
  · have hr : XMLElement.rect "[5,0][0,10]" = some (5, 0, -5, 10) := by decide
    have h1 : pyTrunc (((-5 : ℤ) : ℚ) * (1 / 2)) = -2 := by
      rw [show (((-5 : ℤ) : ℚ) * (1 / 2)) = ((-5 : ℤ) : ℚ) / ((2 : ℕ) : ℚ) by
        push_cast; ring]
      rw [pyTrunc_div (-5) 2 (by norm_num)]
      decide
    have h2 : pyTrunc (((10 : ℤ) : ℚ) * (1 / 2)) = 5 := by
      rw [show (((10 : ℤ) : ℚ) * (1 / 2)) = ((10 : ℤ) : ℚ) / ((2 : ℕ) : ℚ) by
        push_cast; ring]
      rw [pyTrunc_div 10 2 (by norm_num)]
      decide
    show XMLElement.offset "[5,0][0,10]" (1/2) (1/2) = some (3, 5)
    simp only [XMLElement.offset, hr, h1, h2]
    decide
  · rw [show ((-5 : ℚ) * (1 / 2)) = ((-5 : ℤ) : ℚ) / ((2 : ℕ) : ℚ) by push_cast; ring]
    rw [Rat.floor_intCast_div_natCast]
    decide

/-- Claim C5 (amended): for the bounds string `[10,20][110,220]` the derived
rect is (10, 20, 100, 200) and the center is (60, 120); `center` is
`offset(1/2, 1/2)`; and `offset(px, py)` equals
`(left + ⌊width·px⌋, top + ⌊height·py⌋)` whenever both products are
nonnegative — in general the code truncates the products toward zero
(Python `int()`), which agrees with the floor exactly on nonnegative
products. -/
theorem offset_formula :
    (XMLElement.rect "[10,20][110,220]" = some (10, 20, 100, 200)) ∧
    (XMLElement.center "[10,20][110,220]" = some (60, 120)) ∧
    (∀ s, XMLElement.center s = XMLElement.offset s (1/2) (1/2)) ∧
    (∀ (s : String) (px py : ℚ) (l t w h : ℤ),
      XMLElement.rect s = some (l, t, w, h) →
      0 ≤ (w : ℚ) * px → 0 ≤ (h : ℚ) * py →
      XMLElement.offset s px py = some (l + ⌊(w : ℚ) * px⌋, t + ⌊(h : ℚ) * py⌋)) := by
  refine ⟨by decide, ?_, fun s => rfl, ?_⟩
  · have hr : XMLElement.rect "[10,20][110,220]" = some (10, 20, 100, 200) := by decide
    have h1 : pyTrunc (((100 : ℤ) : ℚ) * (1 / 2)) = 50 := by
      rw [show (((100 : ℤ) : ℚ) * (1 / 2)) = ((100 : ℤ) : ℚ) / ((2 : ℕ) : ℚ) by
        push_cast; ring]
      rw [pyTrunc_div 100 2 (by norm_num)]
      decide
    have h2 : pyTrunc (((200 : ℤ) : ℚ) * (1 / 2)) = 100 := by
      rw [show (((200 : ℤ) : ℚ) * (1 / 2)) = ((200 : ℤ) : ℚ) / ((2 : ℕ) : ℚ) by
        push_cast; ring]
      rw [pyTrunc_div 200 2 (by norm_num)]
      decide
    show XMLElement.offset "[10,20][110,220]" (1/2) (1/2) = some (60, 120)
    simp only [XMLElement.offset, hr, h1, h2]
    decide
  · intro s px py l t w h hr hw hh
    simp only [XMLElement.offset, hr]
    rw [pyTrunc_eq_floor _ hw, pyTrunc_eq_floor _ hh]

/-- Witness for the amended C5 theorem at the spec's example bounds with
px = py = 1/2. -/
theorem offset_formula_witness :
    XMLElement.offset "[10,20][110,220]" (1/2) (1/2)
      = some (10 + ⌊((100 : ℤ) : ℚ) * (1/2)⌋, 20 + ⌊((200 : ℤ) : ℚ) * (1/2)⌋) :=
  offset_formula.2.2.2 "[10,20][110,220]" (1/2) (1/2) 10 20 100 200
    (by decide) (by norm_num) (by norm_num)

/-- Claim C7: for any parsed bounds with right ≥ left and bottom ≥ top and
any scale in (0, 1], the swipe path runs between the midpoints of two
opposite edges of the inset rectangle obtained by trimming
⌊width·(1−scale)/2⌋ resp. ⌊height·(1−scale)/2⌋ from each side: `left` goes
right-edge-mid → left-edge-mid, `right` the reverse, `up` goes
bottom-edge-mid → top-edge-mid, `down` the reverse, and any other direction
is a hard error. -/
theorem swipe_trimmed_edge_midpoints (s : String) (lx ly rx ry : ℤ) (scale : ℚ)
    (hb : XMLElement.bounds s = some (lx, ly, rx, ry))
    (h0 : 0 < scale) (h1 : scale ≤ 1) (hx : lx ≤ rx) (hy : ly ≤ ry) :
    XMLElement.swipe s "left" scale =
      .ok ((rx - ⌊((rx - lx : ℤ) : ℚ) * (1 - scale) / 2⌋, (ly + ry) / 2),
           (lx + ⌊((rx - lx : ℤ) : ℚ) * (1 - scale) / 2⌋, (ly + ry) / 2)) ∧
    XMLElement.swipe s "right" scale =
      .ok ((lx + ⌊((rx - lx : ℤ) : ℚ) * (1 - scale) / 2⌋, (ly + ry) / 2),
           (rx - ⌊((rx - lx : ℤ) : ℚ) * (1 - scale) / 2⌋, (ly + ry) / 2)) ∧
    XMLElement.swipe s "up" scale =
      .ok (((lx + rx) / 2, ry - ⌊((ry - ly : ℤ) : ℚ) * (1 - scale) / 2⌋),
           ((lx + rx) / 2, ly + ⌊((ry - ly : ℤ) : ℚ) * (1 - scale) / 2⌋)) ∧
    XMLElement.swipe s "down" scale =
      .ok (((lx + rx) / 2, ly + ⌊((ry - ly : ℤ) : ℚ) * (1 - scale) / 2⌋),
           ((lx + rx) / 2, ry - ⌊((ry - ly : ℤ) : ℚ) * (1 - scale) / 2⌋)) ∧
    (∀ d : String, d ≠ "left" → d ≠ "right" → d ≠ "up" → d ≠ "down" →
      XMLElement.swipe s d scale = .error PyErr.runtimeError) := by
  have hscale : 0 < scale ∧ scale ≤ 1 := ⟨h0, h1⟩
  have hW : (pyTrunc (((rx - lx : ℤ) : ℚ) * (1 - scale))).fdiv 2 =
      ⌊((rx - lx : ℤ) : ℚ) * (1 - scale) / 2⌋ := by
    have hq : (0 : ℚ) ≤ ((rx - lx : ℤ) : ℚ) * (1 - scale) := by
      apply mul_nonneg
      · exact_mod_cast sub_nonneg.mpr hx
      · linarith
    rw [pyTrunc_eq_floor _ hq, Int.fdiv_eq_ediv _ (by omega), floor_half]
  have hH : (pyTrunc (((ry - ly : ℤ) : ℚ) * (1 - scale))).fdiv 2 =
      ⌊((ry - ly : ℤ) : ℚ) * (1 - scale) / 2⌋ := by
    have hq : (0 : ℚ) ≤ ((ry - ly : ℤ) : ℚ) * (1 - scale) := by
      apply mul_nonneg
      · exact_mod_cast sub_nonneg.mpr hy
      · linarith
    rw [pyTrunc_eq_floor _ hq, Int.fdiv_eq_ediv _ (by omega), floor_half]
  have hMidY : ly + (ry - ly).fdiv 2 = (ly + ry) / 2 := by
    rw [Int.fdiv_eq_ediv _ (by omega)]
    omega
  have hMidX : lx + (rx - lx).fdiv 2 = (lx + rx) / 2 := by
    rw [Int.fdiv_eq_ediv _ (by omega)]
    omega
  refine ⟨?_, ?_, ?_, ?_, ?_⟩
  · simp only [XMLElement.swipe, if_neg (not_not_intro hscale), hb, hW, hH, hMidY, hMidX]
    rfl
  · simp only [XMLElement.swipe, if_neg (not_not_intro hscale), hb, hW, hH, hMidY, hMidX]
    rfl
  · simp only [XMLElement.swipe, if_neg (not_not_intro hscale), hb, hW, hH, hMidY, hMidX]
    rfl
  · simp only [XMLElement.swipe, if_neg (not_not_intro hscale), hb, hW, hH, hMidY, hMidX]
    rfl
  · intro d hdl hdr hdu hdd
    simp only [XMLElement.swipe, if_neg (not_not_intro hscale), hb, if_neg hdl, if_neg hdr,
      if_neg hdu, if_neg hdd]

/-- Witness for the C7 theorem at the spec's example: bounds `[0,0][100,100]`
with scale 1 and direction `left` swipes from (100, 50) to (0, 50). -/
theorem swipe_trimmed_edge_midpoints_witness :
    XMLElement.swipe "[0,0][100,100]" "left" 1 = .ok ((100, 50), (0, 50)) := by
  have h := (swipe_trimmed_edge_midpoints "[0,0][100,100]" 0 0 100 100 1 (by decide)
    (by norm_num) (by norm_num) (by norm_num) (by norm_num)).1
  norm_num at h
  exact h

/-- Membership in the left fold of pairwise set intersections. -/
theorem mem_foldl_set_intersection (n : UINode) (l : List (List UINode))
    (init : List UINode) :
    n ∈ l.foldl set_intersection init ↔ n ∈ init ∧ ∀ x ∈ l, n ∈ x := by
  induction l generalizing init with
  | nil => simp
  | cons x xs ih =>
    rw [List.foldl_cons, ih]
    simp only [set_intersection, List.mem_filter, List.mem_dedup, List.mem_cons]
    constructor
    · rintro ⟨⟨h1, h2⟩, h3⟩
      exact ⟨h1, fun y hy => by rcases hy with rfl | hy
                                · simpa using h2
                                · exact h3 y hy⟩
    · rintro ⟨h1, h2⟩
      exact ⟨⟨h1, by simpa using h2 x (Or.inl rfl)⟩, fun y hy => h2 y (Or.inr hy)⟩

/-- Claim C1: with the evaluator fixed, resolving a selector holding the
translations of a nonempty list of shorthand queries yields exactly the set
intersection of the per-query match sets, and attaching one more shorthand
query via `.xpath()` (which appends its translation) narrows the result:
every element of the extended resolution already belonged to the original
one. -/
theorem selector_all_is_intersection (ev : String → List UINode)
    (shorthands : List String) (extra : String) (res res2 : List UINode)
    (hne : shorthands ≠ [])
    (hres : XPathSelector.all ev (shorthands.map strict_xpath) = some res)
    (hres2 : XPathSelector.all ev
      (shorthands.map strict_xpath ++ [strict_xpath extra]) = some res2) :
    (∀ n, n ∈ res ↔ ∀ q ∈ shorthands, n ∈ ev (strict_xpath q)) ∧
    (∀ n ∈ res2, n ∈ res) := by
  cases shorthands with
  | nil => exact absurd rfl hne
  | cons s0 ss =>
    simp only [List.map_cons, List.cons_append, XPathSelector.all, List.map_append,
      List.map_nil, Option.some.injEq] at hres hres2
    constructor
    · intro n
      rw [← hres, mem_foldl_set_intersection]
      simp only [List.mem_map, List.mem_cons]
      constructor
      · rintro ⟨h0, hrest⟩ q (rfl | hq)
        · exact h0
        · exact hrest _ ⟨strict_xpath q, ⟨q, hq, rfl⟩, rfl⟩
      · rintro h
        refine ⟨h s0 (Or.inl rfl), ?_⟩
        rintro x ⟨xq, ⟨q, hq, rfl⟩, rfl⟩
        exact h q (Or.inr hq)
    · intro n hn
      rw [← hres2, List.foldl_append, List.foldl_cons, List.foldl_nil] at hn
      rw [← hres]
      simp only [set_intersection, List.mem_filter, List.mem_dedup] at hn
      exact hn.1

/-- Witness for the C1 theorem on a two-query selector over a concrete
evaluator: node 2 lies in the resolution exactly because it matches both
translated queries. -/
theorem selector_all_is_intersection_witness :
    (⟨2, ""⟩ : UINode) ∈ ([⟨2, ""⟩] : List UINode) ↔
      ∀ q ∈ ["@a", "@b"],
        (⟨2, ""⟩ : UINode) ∈
          (fun q1 => if q1 = strict_xpath "@a"
            then [(⟨1, ""⟩ : UINode), ⟨2, ""⟩] else [⟨2, ""⟩, ⟨3, ""⟩]) (strict_xpath q) :=
  (selector_all_is_intersection
    (fun q1 => if q1 = strict_xpath "@a"
      then [(⟨1, ""⟩ : UINode), ⟨2, ""⟩] else [⟨2, ""⟩, ⟨3, ""⟩])
    ["@a", "@b"] "@c" [⟨2, ""⟩] [⟨2, ""⟩]
    (by decide) (by decide) (by decide)).1 ⟨2, ""⟩

/-- Claim C9 (counterexample): with no matching element, `click_nowait`
fails with the bare `IndexError` from `self.all()[0]` — the source contains
no mapping of that error to the selector's not-found error. -/
theorem click_nowait_leaks_index_error :
    XPathSelector.click_nowait (fun _ => []) ["//a"] = .error PyErr.indexError ∧
    PyErr.indexError ≠ PyErr.elementNotFound := by
  exact ⟨rfl, by decide⟩

/-- Claim C9 (amended): `click_nowait` resolves exactly once — no retry, no
wait — and dispatches a click at the first match's center; when the
resolution is empty the underlying `IndexError` propagates as-is rather
than being mapped to the selector's not-found error. -/
theorem click_nowait_amended (ev : String → List UINode) (qs : List String) :
    (XPathSelector.all ev qs = some [] →
      XPathSelector.click_nowait ev qs = .error PyErr.indexError) ∧
    (∀ n rest c, XPathSelector.all ev qs = some (n :: rest) →
      XMLElement.center n.battr = some c →
      XPathSelector.click_nowait ev qs = .ok c) := by
  constructor
  · intro h
    simp [XPathSelector.click_nowait, h]
  · intro n rest c h hc
    simp [XPathSelector.click_nowait, h, hc]

/-- Witness for the amended C9 theorem: a selector with one match clicks the
match's center. -/
theorem click_nowait_amended_witness :
    XPathSelector.click_nowait (fun _ => [⟨1, "[0,0][2,2]"⟩]) ["//x"] = .ok (1, 1) := by
  have h1 : pyTrunc (((2 : ℤ) : ℚ) * (1 / 2)) = 1 := by
    rw [show (((2 : ℤ) : ℚ) * (1 / 2)) = ((1 : ℤ) : ℚ) by norm_num,
      pyTrunc_eq_floor _ (by norm_num), Int.floor_intCast]
  have hc : XMLElement.center "[0,0][2,2]" = some (1, 1) := by
    have hr : XMLElement.rect "[0,0][2,2]" = some (0, 0, 2, 2) := by decide
    show XMLElement.offset "[0,0][2,2]" (1/2) (1/2) = some (1, 1)
    simp only [XMLElement.offset, hr, h1]
    decide
  exact (click_nowait_amended (fun _ => [⟨1, "[0,0][2,2]"⟩]) ["//x"]).2
    ⟨1, "[0,0][2,2]"⟩ [] (1, 1) (by decide) hc

/-- Claim C6 (counterexample): `wait(timeout=0)` does not perform exactly
one resolve-and-return.  With a 20-second session default it polls 100
times (0 is falsy in `timeout or default`), and when the session default is
itself 0 the deadline equals `now`, the loop body never runs, and `wait`
returns `None` even though the element is present at the first poll. -/
theorem wait_zero_timeout_falls_back :
    pyOrTimeout (some 0) 20000 = 20000 ∧
    waitDeadlineChecks (pyOrTimeout (some 0) 20000) = 100 ∧ (100 : ℕ) ≠ 1 ∧
    XPathSelector.wait (fun _ => true) (some 0) 0 = none := by
  refine ⟨rfl, by decide, by decide, rfl⟩

/-- Claim C6 (amended): a zero timeout is falsy in `timeout or default`, so
`wait(timeout=0)` behaves exactly like `wait()` with the session default;
attempt `i` of the poll loop runs iff `200·i` ms lies strictly before the
deadline (the deadline is computed once, and the loop stops without error
once it passes); and when the effective timeout is ≤ 0 the loop performs no
resolve at all and returns the signaled absence `None`. -/
theorem wait_deadline_amended (ex : ℕ → Bool) (glob : ℤ) :
    (XPathSelector.wait ex (some 0) glob = XPathSelector.wait ex none glob) ∧
    (∀ (t : ℤ) (i : ℕ), i < waitDeadlineChecks t ↔ 200 * (i : ℤ) < t) ∧
    (glob ≤ 0 → XPathSelector.wait ex (some 0) glob = none) := by
  refine ⟨rfl, ?_, ?_⟩
  · intro t i
    unfold waitDeadlineChecks
    omega
  · intro hg
    have h0 : waitDeadlineChecks (pyOrTimeout (some 0) glob) = 0 := by
      simp only [pyOrTimeout, if_pos rfl]
      unfold waitDeadlineChecks
      omega
    unfold XPathSelector.wait
    rw [h0]
    rfl

/-- Witness for the amended C6 theorem: with a negative session default and
a zero timeout, `wait` returns `None` immediately. -/
theorem wait_deadline_amended_witness :
    XPathSelector.wait (fun i => i == 3) (some 0) (-5) = none :=
  (wait_deadline_amended (fun i => i == 3) (-5)).2.2 (by norm_num)

mutual

/-- Normalization rewrites each element pair pointwise (tree version). -/
theorem elemsT_norm : ∀ t : UITree, elemsT (normT t) = (elemsT t).map normPair
  | .node tag attrib children => by
    by_cases h : tag = "node" <;>
      simp [normT, elemsT, normPair, h, elemsL_norm children]

/-- Normalization rewrites each element pair pointwise (forest version). -/
theorem elemsL_norm : ∀ ts : List UITree, elemsL (normL ts) = (elemsL ts).map normPair
  | [] => rfl
  | t :: ts => by simp [normL, elemsL, elemsT_norm t, elemsL_norm ts]

end

/-- Popping the `class` key leaves an attribute map with no `class`
binding. -/
theorem lookup_filter_class_none (attrib : List (String × String)) :
    (attrib.filter (fun kv => kv.1 ≠ "class")).lookup "class" = none := by
  induction attrib with
  | nil => rfl
  | cons kv rest ih =>
    by_cases h : kv.1 = "class"
    · simp only [List.filter_cons, h]
      simpa using ih
    · simp only [List.filter_cons]
      rw [if_pos (by simpa using h)]
      have hb : ("class" == kv.1) = false := beq_eq_false_iff_ne.mpr (fun hh => h hh.symm)
      simp only [List.lookup, hb]
      exact ih

/-- Claim C10 (counterexample): the normalization loop only touches elements
whose structural tag is literally `node`.  An element with any other tag
keeps its `class` attribute through resolution, so a structured query
predicated on the class attribute can still match. -/
theorem class_query_can_still_match :
    evalAttrEq "class" "x"
        (normT (.node "hierarchy" [] [.node "foo" [("class", "x")] []])) =
      [("foo", [("class", "x")])] ∧
    [(("foo", [("class", "x")]))] ≠ ([] : List (String × List (String × String))) := by
  exact ⟨rfl, by decide⟩

/-- Claim C10 (amended): during resolution every element tagged `node` — the
tag every element of a real uiautomator dump carries — has its `class`
attribute popped and replaced as its structural tag with `$` mapped to `-`
(defaulting to `node` when absent or empty), elements with other tags are
untouched; consequently, whenever every element carrying a `class`
attribute is tagged `node`, no resolved element exposes a `class` attribute
and any class-equality query matches nothing. -/
theorem norm_removes_class_amended (t : UITree) (v : String) :
    (elemsT (normT t) = (elemsT t).map normPair) ∧
    ((∀ e ∈ elemsT t, (e.2.lookup "class").isSome → e.1 = "node") →
      (∀ e ∈ elemsT (normT t), e.2.lookup "class" = none) ∧
      evalAttrEq "class" v (normT t) = []) := by
  have hclass : (∀ e ∈ elemsT t, (e.2.lookup "class").isSome → e.1 = "node") →
      ∀ e ∈ elemsT (normT t), e.2.lookup "class" = none := by
    intro hall e he
    rw [elemsT_norm t] at he
    obtain ⟨e0, he0, rfl⟩ := List.mem_map.mp he
    by_cases h : e0.1 = "node"
    · simp only [normPair, if_pos h]
      exact lookup_filter_class_none e0.2
    · simp only [normPair, if_neg h]
      cases hlk : e0.2.lookup "class" with
      | none => rfl
      | some w => exact absurd (hall e0 he0 (by simp [hlk])) h
  refine ⟨elemsT_norm t, fun hall => ⟨hclass hall, ?_⟩⟩
  unfold evalAttrEq
  rw [List.filter_eq_nil_iff]
  intro e he
  rw [hclass hall e he]
  simp

/-- Witness for the amended C10 theorem: a one-node dump whose class is
`a$b` resolves with no class attribute left, so the class query for the
new tag value matches nothing. -/
theorem norm_removes_class_amended_witness :
    evalAttrEq "class" "a-b"
        (normT (.node "hierarchy" [] [.node "node" [("class", "a$b")] []])) = [] :=
  ((norm_removes_class_amended
    (.node "hierarchy" [] [.node "node" [("class", "a$b")] []]) "a-b").2 (by decide)).2
